import Mathlib

/-!
Verification development for the bakufu workflow engine core
(step interpreter and control-flow runtime).

The Python source is shallowly embedded:

* `Value` models the JSON-ish Python values flowing through a workflow
  (None, bool, int, str, list).
* `Ctx` models `ExecutionContext` (`workflow_name`, `input_data`,
  `step_outputs`); the usage accumulator is modeled separately by
  `UsageSummary`, mirroring `bakufu/core/models/execution.py`.
* Dictionaries are modeled as association lists with Python `dict`
  update semantics (`setKey`: update in place preserving insertion
  order, append if absent).
* A step's `execute` is modeled as a function
  `σ → Ctx → Except String (Value × Ctx)`: it may fail (raise) and may
  mutate the context it is handed (e.g. nested `set_step_output`
  calls).  The collection processor, conditional evaluator and driver
  are parametrised over the step type `σ`, its id accessor and this
  runner, mirroring `engine.execute_step`.  In-place mutation of a
  context is modeled by returning the updated context; code paths that
  only mutate a deep copy (`model_copy(deep=True)`) build a fresh `Ctx`
  value and discard it, exactly as the copy is unreachable from the
  parent object in the source.
* `TStep` is a small concrete step language used only to instantiate
  the generic runner in witnesses and counterexamples; it plays the
  role of arbitrary text-process steps.

Functions are named after the source methods they translate:
`process_map` is `CollectionProcessor._process_map`, and so on.
-/

/-- Python values as they appear in workflow data. -/
inductive Value where
  | vnull : Value
  | vbool : Bool → Value
  | vint : Int → Value
  | vstr : String → Value
  | vlist : List Value → Value

/-- Python truthiness (`bool(x)`) for the modeled values. -/
def Value.truthy : Value → Bool
  | .vnull => false
  | .vbool b => b
  | .vint n => n != 0
  | .vstr s => s != ""
  | .vlist l => !l.isEmpty

/-- Python dict assignment `d[k] = v`: update in place if the key is
present (insertion order kept), append otherwise. -/
def setKey {α : Type} (d : List (String × α)) (k : String) (v : α) :
    List (String × α) :=
  match d with
  | [] => [(k, v)]
  | (k0, v0) :: rest =>
      if k0 == k then (k0, v) :: rest else (k0, v0) :: setKey rest k v

/-- Python `d.get(k, default)`. -/
def lookupD {α : Type} (d : List (String × α)) (k : String) (dflt : α) :
    α :=
  match d with
  | [] => dflt
  | (k0, v0) :: rest => if k0 == k then v0 else lookupD rest k dflt

/-- ExecutionContext: the mutable per-run state the claims are about
(`workflow_name`, `input_data`, `step_outputs`).  Config and the
template engine are external capabilities and not part of the state. -/
structure Ctx where
  workflow_name : String
  input_data : List (String × Value)
  step_outputs : List (String × Value)

/-- ExecutionContext.set_step_output. -/
def Ctx.set_step_output (ctx : Ctx) (sid : String) (v : Value) : Ctx :=
  { ctx with step_outputs := setKey ctx.step_outputs sid v }

/-- Literal values of `WorkflowStep.on_error` and the conditional
`on_condition_error` field. -/
inductive OnErrorPolicy where
  | stop : OnErrorPolicy
  | cont : OnErrorPolicy
  | skipRemaining : OnErrorPolicy
deriving DecidableEq

/-- Literal values of `CollectionErrorHandling.on_item_failure`. -/
inductive ItemFailurePolicy where
  | skip : ItemFailurePolicy
  | stop : ItemFailurePolicy
  | retry : ItemFailurePolicy
deriving DecidableEq

/-- Literal values of `CollectionErrorHandling.on_condition_error`. -/
inductive FilterCondPolicy where
  | skipItem : FilterCondPolicy
  | stop : FilterCondPolicy
  | defaultFalse : FilterCondPolicy
deriving DecidableEq

/-- Concrete test steps used to instantiate the generic step runner in
witnesses; they stand in for arbitrary nested steps handed to
`engine.execute_step`. -/
inductive TStep where
  | constV : String → Value → TStep
  | getVar : String → String → TStep
  | concatVars : String → String → String → TStep
  | addVars : String → String → String → TStep
  | failIfStr : String → String → String → TStep
  | failAlways : String → String → TStep

/-- Step id of a test step. -/
def TStep.sid : TStep → String
  | .constV i _ => i
  | .getVar i _ => i
  | .concatVars i _ _ => i
  | .addVars i _ _ => i
  | .failIfStr i _ _ => i
  | .failAlways i _ => i

/-- String content of a value, for the concatenation test step. -/
def Value.asStr : Value → String
  | .vstr s => s
  | _ => ""

/-- Integer content of a value, for the addition test step. -/
def Value.asInt : Value → Int
  | .vint n => n
  | _ => 0

/-- Runner for the test steps: each reads the context it is given and
returns a value without mutating the context (like text-process
steps). -/
def runTStep : TStep → Ctx → Except String (Value × Ctx)
  | .constV _ v, ctx => .ok (v, ctx)
  | .getVar _ k, ctx => .ok (lookupD ctx.input_data k .vnull, ctx)
  | .concatVars _ k1 k2, ctx =>
      .ok (.vstr ((lookupD ctx.input_data k1 .vnull).asStr
        ++ (lookupD ctx.input_data k2 .vnull).asStr), ctx)
  | .addVars _ k1 k2, ctx =>
      .ok (.vint ((lookupD ctx.input_data k1 .vnull).asInt
        + (lookupD ctx.input_data k2 .vnull).asInt), ctx)
  | .failIfStr _ k bad, ctx =>
      match lookupD ctx.input_data k .vnull with
      | .vstr s => if s == bad then .error ("step failed on " ++ s)
          else .ok (.vstr s, ctx)
      | v => .ok (v, ctx)
  | .failAlways _ msg, _ => .error msg

/-- Nested-step loop shared by `_process_map_item` and
`_process_reduce`: run each nested step, record its result in the
`step_results` dict and in the (copied) context via `set_step_output`,
threading the context; returns the final `step_results` dict. -/
def nestedStepLoop {σ : Type} (sid : σ → String)
    (run : σ → Ctx → Except String (Value × Ctx)) :
    List σ → Ctx → List (String × Value) →
    Except String (List (String × Value))
  | [], _, acc => .ok acc
  | s :: rest, ctx, acc =>
      match run s ctx with
      | .ok (v, ctx1) =>
          nestedStepLoop sid run rest (ctx1.set_step_output (sid s) v)
            (setKey acc (sid s) v)
      | .error e => .error e

/-- CollectionProcessor._process_map_item: run the nested step list on a
deep copy of the parent context with `item` overlaid; the parent
context is never touched (only `item_context`, which is discarded).
Returns `step_results[list(step_results.keys())[-1]]`, i.e. the value
at the last inserted key, or None when there are no steps. -/
def process_map_item {σ : Type} (sid : σ → String)
    (run : σ → Ctx → Except String (Value × Ctx))
    (steps : List σ) (ctx : Ctx) (item : Value) : Except String Value :=
  let item_context : Ctx :=
    { ctx with input_data := setKey ctx.input_data "item" item }
  match nestedStepLoop sid run steps item_context [] with
  | .ok step_results =>
      match step_results.getLast? with
      | some (_, v) => .ok v
      | none => .ok .vnull
  | .error e => .error e

/-- Sequential branch of `CollectionProcessor._process_map`: items in
order; on failure `stop` re-raises, `skip` appends None, `retry` falls
through appending nothing (the source comment reads: retry logic would
go here if needed). -/
def process_map_sequential {σ : Type} (sid : σ → String)
    (run : σ → Ctx → Except String (Value × Ctx))
    (policy : ItemFailurePolicy) (steps : List σ) (ctx : Ctx) :
    List Value → Except String (List Value)
  | [] => .ok []
  | item :: rest =>
      match process_map_item sid run steps ctx item with
      | .ok v =>
          (process_map_sequential sid run policy steps ctx rest).map
            (fun l => v :: l)
      | .error e =>
          match policy with
          | .stop => .error e
          | .skip =>
              (process_map_sequential sid run policy steps ctx rest).map
                (fun l => .vnull :: l)
          | .retry => process_map_sequential sid run policy steps ctx rest

/-- CollectionProcessor._process_map_parallel.  The result slot of item
i starts as None (`results = [None] * len(input_list)`); each task
writes only its own index, so the outcome is deterministic and
independent of scheduling.  A failing task leaves None at its index
under every policy: `skip` writes None explicitly, `retry` falls
through, and `stop` re-raises inside the task, but
`asyncio.gather(*tasks, return_exceptions=True)` captures that
exception and the returned exception list is discarded, so the
function returns the results list normally in every case. -/
def process_map_parallel {σ : Type} (sid : σ → String)
    (run : σ → Ctx → Except String (Value × Ctx))
    (_policy : ItemFailurePolicy) (steps : List σ) (ctx : Ctx)
    (items : List Value) : List Value :=
  items.map (fun item =>
    match process_map_item sid run steps ctx item with
    | .ok v => v
    | .error _ => .vnull)

/-- CollectionProcessor._process_map: dispatch on the concurrency spec
(`concurrency.get("max_parallel", 1) > 1` selects the parallel mode). -/
def process_map {σ : Type} (sid : σ → String)
    (run : σ → Ctx → Except String (Value × Ctx))
    (concurrency : Option Nat) (policy : ItemFailurePolicy)
    (steps : List σ) (ctx : Ctx) (items : List Value) :
    Except String (List Value) :=
  match concurrency with
  | some maxParallel =>
      if maxParallel > 1 then
        .ok (process_map_parallel sid run policy steps ctx items)
      else process_map_sequential sid run policy steps ctx items
  | none => process_map_sequential sid run policy steps ctx items

/-- Base context used by concrete examples. -/
def ctx0 : Ctx :=
  { workflow_name := "wf", input_data := [], step_outputs := [] }

/-- CollectionProcessor._process_reduce: iterate the items in order,
each iteration building a deep-copied context with the accumulator and
item variables overlaid (in that insertion order), running the nested
step list, and rebinding the accumulator to the last nested-step
result when there are steps. -/
def process_reduce {σ : Type} (sid : σ → String)
    (run : σ → Ctx → Except String (Value × Ctx))
    (steps : List σ) (accVar itemVar : String) (acc : Value) (ctx : Ctx) :
    List Value → Except String Value
  | [] => .ok acc
  | item :: rest =>
      let overlaid := setKey (setKey ctx.input_data accVar acc) itemVar item
      let reduce_context : Ctx := { ctx with input_data := overlaid }
      match nestedStepLoop sid run steps reduce_context [] with
      | .ok step_results =>
          match step_results.getLast? with
          | some (_, v) =>
              process_reduce sid run steps accVar itemVar v ctx rest
          | none => process_reduce sid run steps accVar itemVar acc ctx rest
      | .error e => .error e

/-- One fold iteration of `_process_reduce`, as a function of the
incoming accumulator and the current item; used to state that reduce
is a left fold. -/
def reduce_iteration {σ : Type} (sid : σ → String)
    (run : σ → Ctx → Except String (Value × Ctx))
    (steps : List σ) (accVar itemVar : String) (ctx : Ctx)
    (acc item : Value) : Except String Value :=
  let overlaid := setKey (setKey ctx.input_data accVar acc) itemVar item
  let reduce_context : Ctx := { ctx with input_data := overlaid }
  match nestedStepLoop sid run steps reduce_context [] with
  | .ok step_results =>
      match step_results.getLast? with
      | some (_, v) => .ok v
      | none => .ok acc
  | .error e => .error e

/-- WorkflowExecutionEngine.execute_workflow: sequential driver loop.
Results and step outputs are recorded for a successful step before the
next step runs; on failure the step's own `on_error` selects between
re-raising, recording None and continuing, and recording None and
ending the run without error. -/
def execute_workflow {σ : Type} (sid : σ → String)
    (onErr : σ → OnErrorPolicy)
    (run : σ → Ctx → Except String (Value × Ctx)) :
    List σ → Ctx → List (String × Value) →
    Except String (List (String × Value) × Ctx)
  | [], ctx, results => .ok (results, ctx)
  | s :: rest, ctx, results =>
      match run s ctx with
      | .ok (v, ctx1) =>
          execute_workflow sid onErr run rest
            (ctx1.set_step_output (sid s) v) (setKey results (sid s) v)
      | .error e =>
          match onErr s with
          | .stop => .error e
          | .cont =>
              execute_workflow sid onErr run rest
                (ctx.set_step_output (sid s) .vnull)
                (setKey results (sid s) .vnull)
          | .skipRemaining =>
              .ok (setKey results (sid s) .vnull,
                ctx.set_step_output (sid s) .vnull)

/-- Under the `skip` item-failure policy the sequential map equals the
parallel map (failing items become None at their position in both
modes). -/
theorem process_map_sequential_skip_eq_parallel {σ : Type}
    (sid : σ → String) (run : σ → Ctx → Except String (Value × Ctx))
    (steps : List σ) (ctx : Ctx) (items : List Value) :
    process_map_sequential sid run .skip steps ctx items
      = .ok (process_map_parallel sid run .skip steps ctx items) := by
  induction items with
  | nil => rfl
  | cons item rest ih =>
    simp only [process_map_sequential, process_map_parallel, List.map_cons]
    simp only [process_map_parallel] at ih
    cases h : process_map_item sid run steps ctx item with
    | ok v => simp [h, ih, Except.map]
    | error e => simp [h, ih, Except.map]

/-- When every item succeeds, the sequential map equals the parallel
map under any item-failure policy. -/
theorem process_map_sequential_eq_parallel_of_all_ok {σ : Type}
    (sid : σ → String) (run : σ → Ctx → Except String (Value × Ctx))
    (policy : ItemFailurePolicy) (steps : List σ) (ctx : Ctx)
    (items : List Value)
    (h : ∀ item ∈ items,
      (process_map_item sid run steps ctx item).isOk = true) :
    process_map_sequential sid run policy steps ctx items
      = .ok (process_map_parallel sid run policy steps ctx items) := by
  induction items with
  | nil => rfl
  | cons item rest ih =>
    have ih2 := ih (fun it hit => h it (List.mem_cons_of_mem _ hit))
    simp only [process_map_sequential, process_map_parallel, List.map_cons]
    simp only [process_map_parallel] at ih2
    cases hcall : process_map_item sid run steps ctx item with
    | ok v => simp [hcall, ih2, Except.map]
    | error e =>
      have hbad := h item (List.mem_cons_self _ _)
      rw [hcall] at hbad
      simp [Except.isOk, Except.toBool] at hbad

/-- C1: the claim says a bounded-parallel map (max_parallel > 1) with
on_item_failure = stop propagates an item failure to its caller after
all dispatched items settle.  The code does not propagate it:
`asyncio.gather(*tasks, return_exceptions=True)` captures the
exception re-raised by the stop branch and the captured exceptions are
discarded, so `_process_map_parallel` returns normally with None at
the failing index; the sequential mode with the same policy re-raises
on the same input (second conjunct, showing the divergence). -/
theorem C1_parallel_stop_swallows_failure :
    process_map TStep.sid runTStep (some 2) .stop
      [TStep.failIfStr "s1" "item" "b"] ctx0 [.vstr "a", .vstr "b"]
      = .ok [.vstr "a", .vnull]
    ∧ process_map TStep.sid runTStep none .stop
      [TStep.failIfStr "s1" "item" "b"] ctx0 [.vstr "a", .vstr "b"]
      = .error "step failed on b" :=
  ⟨rfl, rfl⟩

/-- C2 counterexample: with on_item_failure = stop and an item whose
nested step fails, the bounded-parallel map (max_parallel = 2) returns
an output array while the sequential map raises, so the two modes are
not element-for-element equal under every error-handling policy. -/
theorem C2_counterexample_stop_mode_diverges :
    ¬ (process_map TStep.sid runTStep (some 2) .stop
        [TStep.failIfStr "s1" "item" "b"] ctx0 [.vstr "a", .vstr "b"]
      = process_map TStep.sid runTStep none .stop
        [TStep.failIfStr "s1" "item" "b"] ctx0 [.vstr "a", .vstr "b"]) := by
  intro h
  have h1 : process_map TStep.sid runTStep (some 2) .stop
      [TStep.failIfStr "s1" "item" "b"] ctx0 [.vstr "a", .vstr "b"]
      = Except.ok [Value.vstr "a", Value.vnull] := rfl
  have h2 : process_map TStep.sid runTStep none .stop
      [TStep.failIfStr "s1" "item" "b"] ctx0 [.vstr "a", .vstr "b"]
      = Except.error "step failed on b" := rfl
  rw [h1, h2] at h
  exact Except.noConfusion h

/-- C2 amended: for every list of items and every concurrency setting,
the bounded-parallel map's output equals the sequential map's output
element-for-element, provided the error-handling policy is skip or no
item fails; (the stop and retry policies diverge on failing items, see
the counterexample). -/
theorem C2_amended_map_order_invariance {σ : Type} (sid : σ → String)
    (run : σ → Ctx → Except String (Value × Ctx))
    (concurrency : Option Nat) (policy : ItemFailurePolicy)
    (steps : List σ) (ctx : Ctx) (items : List Value)
    (h : policy = .skip ∨ ∀ item ∈ items,
      (process_map_item sid run steps ctx item).isOk = true) :
    process_map sid run concurrency policy steps ctx items
      = process_map sid run none policy steps ctx items := by
  have key : process_map_sequential sid run policy steps ctx items
      = .ok (process_map_parallel sid run policy steps ctx items) := by
    rcases h with h | h
    · subst h
      exact process_map_sequential_skip_eq_parallel sid run steps ctx items
    · exact process_map_sequential_eq_parallel_of_all_ok sid run policy
        steps ctx items h
  unfold process_map
  cases concurrency with
  | none => rfl
  | some n =>
    by_cases hn : n > 1
    · simp [hn, key]
    · simp [hn]

/-- C2 witness: a concrete instance of the amended order-invariance
theorem under the skip policy, with a failing middle item. -/
theorem C2_amended_map_order_invariance_witness :
    process_map TStep.sid runTStep (some 3) .skip
      [TStep.failIfStr "s1" "item" "b"] ctx0
      [.vstr "a", .vstr "b", .vstr "c"]
      = process_map TStep.sid runTStep none .skip
      [TStep.failIfStr "s1" "item" "b"] ctx0
      [.vstr "a", .vstr "b", .vstr "c"] :=
  C2_amended_map_order_invariance TStep.sid runTStep (some 3) .skip
    [TStep.failIfStr "s1" "item" "b"] ctx0
    [.vstr "a", .vstr "b", .vstr "c"] (Or.inl rfl)

/-- C10: reduce is a sequential left fold in input order: the loop of
`_process_reduce` equals `List.foldlM` of one fold iteration (cloned
context with the accumulator and item variables overlaid, accumulator
rebound to the last nested-step output); instantiating with the
non-commutative string-concatenation step on ["a","b","c"] with seed ""
yields "abc", the items in exact input order. -/
theorem C10_reduce_is_left_fold :
    (∀ (σ : Type) (sid : σ → String)
      (run : σ → Ctx → Except String (Value × Ctx))
      (steps : List σ) (accVar itemVar : String) (init : Value)
      (ctx : Ctx) (items : List Value),
      process_reduce sid run steps accVar itemVar init ctx items
        = List.foldlM (reduce_iteration sid run steps accVar itemVar ctx)
            init items)
    ∧ process_reduce TStep.sid runTStep [TStep.concatVars "c1" "acc" "item"]
        "acc" "item" (.vstr "") ctx0 [.vstr "a", .vstr "b", .vstr "c"]
      = .ok (.vstr "abc") := by
  constructor
  · intro σ sid run steps accVar itemVar init ctx items
    induction items generalizing init with
    | nil => rfl
    | cons item rest ih =>
      rw [List.foldlM_cons]
      simp only [process_reduce, reduce_iteration]
      cases hl : nestedStepLoop sid run steps
          (Ctx.mk ctx.workflow_name
            (setKey (setKey ctx.input_data accVar init) itemVar item)
            ctx.step_outputs) [] with
      | ok step_results =>
        cases hg : step_results.getLast? with
        | some p => cases p with
          | mk k v =>
            simp only [hg]
            rw [ih]
            rfl
        | none =>
          simp only [hg]
          rw [ih]
          rfl
      | error e => rfl
  · rfl

/-- C9: driver error-policy semantics of
`WorkflowExecutionEngine.execute_workflow`.  When a step fails: `stop`
re-raises and the run ends; `continue` records a null output for the
step and proceeds with the remaining steps; `skip_remaining` records a
null output and ends the run without error.  A successful step has its
output recorded in the context and results before the next step
starts. -/
theorem C9_driver_error_policy {σ : Type} (sid : σ → String)
    (onErr : σ → OnErrorPolicy)
    (run : σ → Ctx → Except String (Value × Ctx))
    (s : σ) (rest : List σ) (ctx : Ctx)
    (results : List (String × Value)) :
    (∀ e, run s ctx = .error e →
      (onErr s = .stop →
        execute_workflow sid onErr run (s :: rest) ctx results = .error e)
      ∧ (onErr s = .cont →
        execute_workflow sid onErr run (s :: rest) ctx results
          = execute_workflow sid onErr run rest
              (ctx.set_step_output (sid s) .vnull)
              (setKey results (sid s) .vnull))
      ∧ (onErr s = .skipRemaining →
        execute_workflow sid onErr run (s :: rest) ctx results
          = .ok (setKey results (sid s) .vnull,
              ctx.set_step_output (sid s) .vnull)))
    ∧ (∀ v ctx1, run s ctx = .ok (v, ctx1) →
      execute_workflow sid onErr run (s :: rest) ctx results
        = execute_workflow sid onErr run rest
            (ctx1.set_step_output (sid s) v) (setKey results (sid s) v)) := by
  constructor
  · intro e he
    refine ⟨?_, ?_, ?_⟩ <;> intro hp <;> simp [execute_workflow, he, hp]
  · intro v ctx1 hok
    simp [execute_workflow, hok]

/-- C9 witness: a failing step under the continue policy records a
null output and the driver proceeds. -/
theorem C9_driver_error_policy_witness :
    execute_workflow TStep.sid (fun _ => OnErrorPolicy.cont) runTStep
      [TStep.failAlways "s1" "boom"] ctx0 []
      = execute_workflow TStep.sid (fun _ => OnErrorPolicy.cont) runTStep []
          (ctx0.set_step_output "s1" .vnull) (setKey [] "s1" .vnull) :=
  ((C9_driver_error_policy TStep.sid (fun _ => OnErrorPolicy.cont) runTStep
      (TStep.failAlways "s1" "boom") [] ctx0 []).1 "boom" rfl).2.1 rfl

/-- ASCII lowercasing of a character (Python `str.lower()` restricted
to ASCII, which covers every string the membership rules compare
against). -/
def asciiLower (c : Char) : Char :=
  if 65 ≤ c.toNat ∧ c.toNat ≤ 90 then Char.ofNat (c.toNat + 32) else c

/-- ASCII lowercasing of a string, Python `s.lower()`. -/
def strLower (s : String) : String :=
  String.mk (s.data.map asciiLower)

/-- String-to-boolean coercion used by the filter operation
(`CollectionProcessor._process_filter`):
`condition_result.lower() in ("true", "1", "yes", "on")`. -/
def string_to_bool_filter (s : String) : Bool :=
  let l := strLower s
  l == "true" || l == "1" || l == "yes" || l == "on"

/-- String-to-boolean coercion used by the conditional evaluator
(`_execute_basic_conditional` and `_execute_multi_branch_conditional`):
`condition_result_raw.lower() in ("true", "1", "yes")`. -/
def string_to_bool_conditional (s : String) : Bool :=
  let l := strLower s
  l == "true" || l == "1" || l == "yes"

/-- Coercion of a rendered filter condition value: membership rule for
strings, Python truthiness otherwise. -/
def filter_coerce (v : Value) : Bool :=
  match v with
  | .vstr s => string_to_bool_filter s
  | v => v.truthy

/-- Coercion of a rendered conditional condition value: membership rule
for strings, Python truthiness otherwise. -/
def conditional_coerce (v : Value) : Bool :=
  match v with
  | .vstr s => string_to_bool_conditional s
  | v => v.truthy

/-- CollectionProcessor._process_filter: select the items whose
rendered condition coerces to true; on condition-evaluation failure
`stop` raises while `skip_item` and `default_false` both exclude the
item and continue. -/
def process_filter (condEval : Value → Except String Value)
    (policy : FilterCondPolicy) : List Value → Except String (List Value)
  | [] => .ok []
  | item :: rest =>
      match condEval item with
      | .ok raw =>
          if filter_coerce raw then
            (process_filter condEval policy rest).map (fun l => item :: l)
          else process_filter condEval policy rest
      | .error e =>
          match policy with
          | .stop => .error ("Filter condition evaluation failed: " ++ e)
          | .skipItem => process_filter condEval policy rest
          | .defaultFalse => process_filter condEval policy rest

/-- C7 counterexample: the two string-to-boolean coercions disagree on
the string "on" (the filter accepts it, the conditional does not), so
they are not equal for every string. -/
theorem C7_counterexample_coercions_differ_on :
    string_to_bool_filter "on" = true
    ∧ string_to_bool_conditional "on" = false := by
  exact ⟨by decide, by decide⟩

/-- C7 amended: the conditional evaluator's string-to-boolean coercion
equals the filter operation's coercion for every string whose
lowercase form is not "on"; the filter additionally accepts "on". -/
theorem C7_amended_coercions_agree_off_on (s : String)
    (h : strLower s ≠ "on") :
    string_to_bool_filter s = string_to_bool_conditional s := by
  have hb : (strLower s == "on") = false := beq_eq_false_iff_ne.mpr h
  simp [string_to_bool_filter, string_to_bool_conditional, hb]

/-- C7 witness: the two coercions agree on "TRUE". -/
theorem C7_amended_coercions_agree_off_on_witness :
    strLower "TRUE" ≠ "on"
    ∧ string_to_bool_filter "TRUE" = string_to_bool_conditional "TRUE" :=
  ⟨by decide, C7_amended_coercions_agree_off_on "TRUE" (by decide)⟩

/-- Result record of a conditional step
(`ConditionalResult` in `bakufu/core/models/results.py`). -/
structure ConditionalResult where
  output : Value
  condition_result : Option Bool
  executed_branch : Option String
  evaluation_error : Option String

/-- ConditionalStep._execute_step_list (identical code in
`execution_engine._execute_step_list`): run the nested steps directly
on the context it is given — no copy — recording each output on that
same context via `set_step_output`, and return the last output
(initially None) together with the updated context. -/
def execute_step_list {σ : Type} (sid : σ → String)
    (run : σ → Ctx → Except String (Value × Ctx)) :
    List σ → Ctx → Value → Except String (Value × Ctx)
  | [], ctx, last => .ok (last, ctx)
  | s :: rest, ctx, _ =>
      match run s ctx with
      | .ok (v, ctx1) =>
          execute_step_list sid run rest (ctx1.set_step_output (sid s) v) v
      | .error e => .error e

/-- Branch-execution block of `_execute_basic_conditional` (the code
after the condition try/except): pick `if_true` when the condition is
true and the list is non-empty (Python truthiness of the field), else
`if_false` when false and non-empty; branch failure follows the parent
conditional's on_error (stop re-raises, continue and skip_remaining
yield a null output; the branch name was already assigned). -/
def basic_branch_exec {σ : Type} (sid : σ → String)
    (run : σ → Ctx → Except String (Value × Ctx))
    (if_true if_false : List σ) (onError : OnErrorPolicy) (ctx : Ctx)
    (condition_result : Bool) (evaluation_error : Option String) :
    Except String (ConditionalResult × Ctx) :=
  if condition_result && !if_true.isEmpty then
    match execute_step_list sid run if_true ctx .vnull with
    | .ok (out, ctx1) =>
        .ok ({ output := out, condition_result := some condition_result,
               executed_branch := some "if_true",
               evaluation_error := evaluation_error }, ctx1)
    | .error e =>
        match onError with
        | .stop => .error e
        | _ =>
            .ok ({ output := .vnull,
                   condition_result := some condition_result,
                   executed_branch := some "if_true",
                   evaluation_error := evaluation_error }, ctx)
  else if !condition_result && !if_false.isEmpty then
    match execute_step_list sid run if_false ctx .vnull with
    | .ok (out, ctx1) =>
        .ok ({ output := out, condition_result := some condition_result,
               executed_branch := some "if_false",
               evaluation_error := evaluation_error }, ctx1)
    | .error e =>
        match onError with
        | .stop => .error e
        | _ =>
            .ok ({ output := .vnull,
                   condition_result := some condition_result,
                   executed_branch := some "if_false",
                   evaluation_error := evaluation_error }, ctx)
  else
    .ok ({ output := .vnull, condition_result := some condition_result,
           executed_branch := none,
           evaluation_error := evaluation_error }, ctx)

/-- WorkflowExecutionEngine._execute_basic_conditional: render the
condition (the template capability `renderCond` is external), coerce
the result, apply on_condition_error on render failure (stop raises,
continue treats the condition as false, skip_remaining returns an
empty result record), then run the branch block. -/
def execute_basic_conditional {σ : Type} (sid : σ → String)
    (run : σ → Ctx → Except String (Value × Ctx))
    (renderCond : Ctx → Except String Value)
    (if_true if_false : List σ) (onCondErr onError : OnErrorPolicy)
    (ctx : Ctx) : Except String (ConditionalResult × Ctx) :=
  match renderCond ctx with
  | .ok raw =>
      basic_branch_exec sid run if_true if_false onError ctx
        (conditional_coerce raw) none
  | .error e =>
      match onCondErr with
      | .stop => .error ("Condition evaluation failed: " ++ e)
      | .cont =>
          basic_branch_exec sid run if_true if_false onError ctx
            false (some e)
      | .skipRemaining =>
          .ok ({ output := .vnull, condition_result := none,
                 executed_branch := none,
                 evaluation_error := some e }, ctx)

/-- CollectionStep execution for a map operation
(`_execute_collection_step` composed with `CollectionProcessor.process`
and `_process_map`): render the input, require a list, run the map;
the parent context is only read and deep-copied per item, never
written, so it comes back unchanged. -/
def execute_collection_map_step {σ : Type} (sid : σ → String)
    (run : σ → Ctx → Except String (Value × Ctx))
    (renderInput : Ctx → Except String Value)
    (concurrency : Option Nat) (policy : ItemFailurePolicy)
    (steps : List σ) (ctx : Ctx) : Except String (Value × Ctx) :=
  match renderInput ctx with
  | .ok (.vlist items) =>
      match process_map sid run concurrency policy steps ctx items with
      | .ok results => .ok (.vlist results, ctx)
      | .error e => .error e
  | .ok _ => .error "Collection input must be a list"
  | .error e => .error e

/-- CollectionStep execution for a reduce operation
(`_execute_collection_step` composed with `_process_reduce`): the
parent context is only read and deep-copied per iteration, never
written, so it comes back unchanged. -/
def execute_collection_reduce_step {σ : Type} (sid : σ → String)
    (run : σ → Ctx → Except String (Value × Ctx))
    (renderInput : Ctx → Except String Value)
    (steps : List σ) (accVar itemVar : String) (init : Value)
    (ctx : Ctx) : Except String (Value × Ctx) :=
  match renderInput ctx with
  | .ok (.vlist items) =>
      match process_reduce sid run steps accVar itemVar init ctx items with
      | .ok acc => .ok (acc, ctx)
      | .error e => .error e
  | .ok _ => .error "Collection input must be a list"
  | .error e => .error e

/-- C6 counterexample: an executed conditional branch does not run on a
deep copy: executing a basic conditional whose if_true branch contains
one step writes that nested step's output into the parent context's
step_outputs (the returned context is the parent after the in-place
mutation), so the parent's step_outputs are changed. -/
theorem C6_counterexample_conditional_mutates_parent :
    execute_basic_conditional TStep.sid runTStep
      (fun _ => .ok (.vbool true)) [TStep.constV "n1" (.vstr "x")] []
      .stop .stop ctx0
      = .ok ({ output := .vstr "x", condition_result := some true,
               executed_branch := some "if_true",
               evaluation_error := none },
             { ctx0 with step_outputs := [("n1", Value.vstr "x")] })
    ∧ [("n1", Value.vstr "x")] ≠ ctx0.step_outputs := by
  refine ⟨rfl, ?_⟩
  intro h
  exact List.noConfusion h

/-- C6 amended: map items and reduce fold iterations do run against a
deep copy with the extra binding overlaid — executing a whole map or
reduce collection step returns the parent context unchanged (its
input_data and step_outputs are untouched), whatever the nested runner
does to the contexts it is handed; executed conditional branches, by
contrast, mutate the parent (see the counterexample). -/
theorem C6_amended_map_reduce_preserve_parent {σ : Type}
    (sid : σ → String) (run : σ → Ctx → Except String (Value × Ctx))
    (renderInput : Ctx → Except String Value)
    (concurrency : Option Nat) (policy : ItemFailurePolicy)
    (steps : List σ) (accVar itemVar : String) (init : Value)
    (ctx : Ctx) :
    ((execute_collection_map_step sid run renderInput concurrency policy
        steps ctx).isOk = false
      ∨ ∃ v, execute_collection_map_step sid run renderInput concurrency
          policy steps ctx = .ok (v, ctx))
    ∧ ((execute_collection_reduce_step sid run renderInput steps accVar
        itemVar init ctx).isOk = false
      ∨ ∃ v, execute_collection_reduce_step sid run renderInput steps
          accVar itemVar init ctx = .ok (v, ctx)) := by
  constructor
  · unfold execute_collection_map_step
    cases hr : renderInput ctx with
    | ok raw =>
      cases raw with
      | vlist items =>
        cases hm : process_map sid run concurrency policy steps ctx items
          with
        | ok results => exact Or.inr ⟨.vlist results, by simp [hm]⟩
        | error e =>
          exact Or.inl (by simp [hm, Except.isOk, Except.toBool])
      | vnull => exact Or.inl rfl
      | vbool b => exact Or.inl rfl
      | vint n => exact Or.inl rfl
      | vstr s => exact Or.inl rfl
    | error e => exact Or.inl rfl
  · unfold execute_collection_reduce_step
    cases hr : renderInput ctx with
    | ok raw =>
      cases raw with
      | vlist items =>
        cases hm : process_reduce sid run steps accVar itemVar init ctx
            items with
        | ok acc => exact Or.inr ⟨acc, by simp [hm]⟩
        | error e =>
          exact Or.inl (by simp [hm, Except.isOk, Except.toBool])
      | vnull => exact Or.inl rfl
      | vbool b => exact Or.inl rfl
      | vint n => exact Or.inl rfl
      | vstr s => exact Or.inl rfl
    | error e => exact Or.inl rfl

/-- One provider completion (`litellm.completion` result as consumed by
`_CompletionProcessor`): content, finish reason and the numeric usage
dict.  Cost is omitted (floating point; no claim concerns it). -/
structure ProviderResponse where
  content : String
  finish_reason : String
  usage : List (String × Int)

/-- The mutable fields of `_CompletionContext` the continuation loop
uses. -/
structure CompletionState where
  accumulated_content : String
  accumulated_usage : List (String × Int)
  total_api_calls : Nat

/-- Initial `_CompletionContext` state. -/
def initCompletionState : CompletionState :=
  { accumulated_content := "", accumulated_usage := [],
    total_api_calls := 0 }

/-- The AIResponse fields the claims concern (content, usage, finish
reason). -/
structure AIResponseM where
  content : String
  usage : Option (List (String × Int))
  finish_reason : String

/-- Per-key addition of a usage dict into the accumulated usage dict
(`accumulated_usage[key] = accumulated_usage.get(key, 0) + value`). -/
def mergeUsage (acc : List (String × Int)) :
    List (String × Int) → List (String × Int)
  | [] => acc
  | (k, v) :: rest => mergeUsage (setKey acc k (lookupD acc k 0 + v)) rest

/-- _CompletionProcessor._accumulate_response_data: append the round's
content and add its usage values per key. -/
def accumulate_response_data (st : CompletionState)
    (resp : ProviderResponse) : CompletionState :=
  { st with
    accumulated_content := st.accumulated_content ++ resp.content,
    accumulated_usage := mergeUsage st.accumulated_usage resp.usage }

/-- _CompletionProcessor._create_final_response: the accumulated
content and usage, tagged with the round's finish reason. -/
def create_final_response (st : CompletionState) (finish_reason : String) :
    AIResponseM :=
  { content := st.accumulated_content,
    usage := if st.accumulated_usage.isEmpty then none
      else some st.accumulated_usage,
    finish_reason := finish_reason }

/-- _CompletionProcessor._create_fallback_response: the accumulated
content tagged "max_auto_retries_reached"; only produced when the
continuation loop falls through without returning. -/
def create_fallback_response (st : CompletionState) : AIResponseM :=
  { content := st.accumulated_content,
    usage := if st.accumulated_usage.isEmpty then none
      else some st.accumulated_usage,
    finish_reason := "max_auto_retries_reached" }

/-- _CompletionProcessor._handle_completion_result: "stop" (or any
non-truncation reason) finalizes with that reason; a truncation reason
("length" or "max_tokens") finalizes with that same raw reason when
the attempt counter has reached max_auto_retry_attempts, and otherwise
returns none to continue the loop. -/
def handle_completion_result (maxAuto : Nat) (st : CompletionState)
    (resp : ProviderResponse) (continuation_attempt : Nat) :
    Option AIResponseM :=
  if resp.finish_reason == "stop" then
    some (create_final_response st resp.finish_reason)
  else if resp.finish_reason == "length"
      || resp.finish_reason == "max_tokens" then
    if continuation_attempt ≥ maxAuto then
      some (create_final_response st resp.finish_reason)
    else none
  else some (create_final_response st resp.finish_reason)

/-- Loop body of `_CompletionProcessor.process_completion`, i.e. the
continuation loop `for continuation_attempt in
range(max_auto_retry_attempts + 1)` with the fall-through fallback
after it.  The provider is modeled as a deterministic script indexed
by the number of API calls made so far; a call increments
total_api_calls and is accumulated before the finish reason is
inspected.  Transport retries are not exercised here: the script
always succeeds, so `_execute_completion_with_retries` returns on its
first attempt (no claim concerns transport failures). -/
def completion_rounds (maxAuto : Nat) (provider : Nat → ProviderResponse) :
    Nat → Nat → CompletionState → AIResponseM × Nat
  | _, 0, st => (create_fallback_response st, st.total_api_calls)
  | attempt, fuel + 1, st =>
      let resp := provider st.total_api_calls
      let st1 := { st with total_api_calls := st.total_api_calls + 1 }
      let st2 := accumulate_response_data st1 resp
      match handle_completion_result maxAuto st2 resp attempt with
      | some r => (r, st2.total_api_calls)
      | none => completion_rounds maxAuto provider (attempt + 1) fuel st2

/-- _CompletionProcessor.process_completion: run the continuation loop
from attempt 0 with budget max_auto_retry_attempts + 1, returning the
response and the final total_api_calls counter. -/
def process_completion (maxAuto : Nat)
    (provider : Nat → ProviderResponse) : AIResponseM × Nat :=
  completion_rounds maxAuto provider 0 (maxAuto + 1) initCompletionState

/-- One continuation round's effect on the completion state: count the
API call, then accumulate the response indexed by the previous call
count. -/
def roundStep (provider : Nat → ProviderResponse)
    (st : CompletionState) : CompletionState :=
  accumulate_response_data
    { st with total_api_calls := st.total_api_calls + 1 }
    (provider st.total_api_calls)

/-- Iterating the round step adds the round count to total_api_calls. -/
theorem roundStep_iterate_calls (provider : Nat → ProviderResponse)
    (n : Nat) (st : CompletionState) :
    ((roundStep provider)^[n] st).total_api_calls
      = st.total_api_calls + n := by
  induction n generalizing st with
  | zero => rfl
  | succ m ih =>
    rw [Function.iterate_succ_apply, ih]
    simp [roundStep, accumulate_response_data]
    omega

/-- One unfolding step of the continuation loop. -/
theorem completion_rounds_succ (maxAuto : Nat)
    (provider : Nat → ProviderResponse) (attempt fuel : Nat)
    (st : CompletionState) :
    completion_rounds maxAuto provider attempt (fuel + 1) st
      = (let resp := provider st.total_api_calls
         let st2 := accumulate_response_data
            { st with total_api_calls := st.total_api_calls + 1 } resp
         match handle_completion_result maxAuto st2 resp attempt with
         | some r => (r, st2.total_api_calls)
         | none => completion_rounds maxAuto provider (attempt + 1) fuel st2)
      := rfl

/-- Closed form of the continuation loop when every round reports the
truncation reason "length": all fuel is consumed and the result is the
final response of the fully accumulated state, tagged "length". -/
theorem completion_rounds_all_length (maxAuto : Nat)
    (provider : Nat → ProviderResponse)
    (hp : ∀ i, (provider i).finish_reason = "length") :
    ∀ (fuel attempt : Nat) (st : CompletionState), 0 < fuel →
      attempt + fuel = maxAuto + 1 →
      completion_rounds maxAuto provider attempt fuel st
        = (create_final_response ((roundStep provider)^[fuel] st) "length",
           ((roundStep provider)^[fuel] st).total_api_calls) := by
  intro fuel
  induction fuel with
  | zero => intro attempt st hpos hsum; omega
  | succ f ih =>
    intro attempt st hpos hsum
    have hfr : (provider st.total_api_calls).finish_reason = "length" :=
      hp st.total_api_calls
    cases f with
    | zero =>
      have hge : attempt ≥ maxAuto := by omega
      rw [completion_rounds_succ]
      simp only [handle_completion_result, hfr]
      rw [if_neg (by decide), if_pos (by decide), if_pos hge]
      rfl
    | succ f1 =>
      have hlt : ¬ attempt ≥ maxAuto := by omega
      rw [completion_rounds_succ]
      simp only [handle_completion_result, hfr]
      rw [if_neg (by decide), if_pos (by decide), if_neg hlt]
      rw [ih (attempt + 1) _ (by omega) (by omega)]
      rw [Function.iterate_succ_apply]
      rfl

/-- A round whose handler returns none advances the loop to the next
attempt with the accumulated state. -/
theorem completion_rounds_continue (maxAuto : Nat)
    (provider : Nat → ProviderResponse) (attempt fuel : Nat)
    (st : CompletionState)
    (h : handle_completion_result maxAuto (roundStep provider st)
      (provider st.total_api_calls) attempt = none) :
    completion_rounds maxAuto provider attempt (fuel + 1) st
      = completion_rounds maxAuto provider (attempt + 1) fuel
          (roundStep provider st) := by
  rw [completion_rounds_succ]
  dsimp only
  simp only [roundStep] at h
  rw [h]
  rfl

/-- A round whose handler returns a response finalizes the loop with
that response and the call count so far. -/
theorem completion_rounds_finalize (maxAuto : Nat)
    (provider : Nat → ProviderResponse) (attempt fuel : Nat)
    (st : CompletionState) (r : AIResponseM)
    (h : handle_completion_result maxAuto (roundStep provider st)
      (provider st.total_api_calls) attempt = some r) :
    completion_rounds maxAuto provider attempt (fuel + 1) st
      = (r, (roundStep provider st).total_api_calls) := by
  rw [completion_rounds_succ]
  dsimp only
  simp only [roundStep] at h
  rw [h]
  rfl

/-- C3 counterexample: with max_auto_retry_attempts = 2 and a provider
that reports "length" on every round, the continuation budget is
exhausted and the accumulated partial content is returned — but its
finish reason is the raw truncation reason "length", not the
distinguishable value "max_auto_retries_reached" the claim requires. -/
theorem C3_counterexample_exhausted_budget_reason_is_length :
    (process_completion 2
        (fun _ => ⟨"x", "length", [("total_tokens", 5)]⟩)).1.finish_reason
      = "length"
    ∧ (process_completion 2
        (fun _ => ⟨"x", "length", [("total_tokens", 5)]⟩)).1.content
      = "xxx"
    ∧ ("length" : String) ≠ "max_auto_retries_reached" :=
  ⟨rfl, rfl, by decide⟩

/-- C3 amended: when the continuation budget is exhausted on a
truncated response, the accumulated partial content is returned as the
best-effort final response, but it is tagged with the provider's raw
truncation reason ("length"); exactly max_auto_retry_attempts + 1 API
calls are made.  The "max_auto_retries_reached" tag exists only in
`_create_fallback_response`, which the loop cannot reach, since on the
last attempt the handler always finalizes. -/
theorem C3_amended_exhausted_budget_keeps_accumulation (maxAuto : Nat)
    (provider : Nat → ProviderResponse)
    (hp : ∀ i, (provider i).finish_reason = "length") :
    process_completion maxAuto provider
      = (create_final_response
          ((roundStep provider)^[maxAuto + 1] initCompletionState)
          "length",
         ((roundStep provider)^[maxAuto + 1]
            initCompletionState).total_api_calls)
    ∧ (process_completion maxAuto provider).2 = maxAuto + 1 := by
  have key := completion_rounds_all_length maxAuto provider hp
    (maxAuto + 1) 0 initCompletionState (by omega) (by omega)
  constructor
  · exact key
  · have : (process_completion maxAuto provider).2
        = ((roundStep provider)^[maxAuto + 1]
            initCompletionState).total_api_calls := by
      unfold process_completion
      rw [key]
    rw [this, roundStep_iterate_calls]
    show 0 + (maxAuto + 1) = maxAuto + 1
    omega

/-- C3 witness: the amended statement at max_auto_retry_attempts = 1
with a constant "length" provider. -/
theorem C3_amended_exhausted_budget_keeps_accumulation_witness :
    process_completion 1 (fun _ => ⟨"x", "length", []⟩)
      = (create_final_response
          ((roundStep (fun _ => ⟨"x", "length", []⟩))^[2]
            initCompletionState) "length",
         ((roundStep (fun _ => ⟨"x", "length", []⟩))^[2]
            initCompletionState).total_api_calls)
    ∧ (process_completion 1 (fun _ => ⟨"x", "length", []⟩)).2 = 2 :=
  C3_amended_exhausted_budget_keeps_accumulation 1
    (fun _ => ⟨"x", "length", []⟩) (fun _ => rfl)

/-- C4: with max_auto_retry_attempts = 2 and a provider returning
finish_reason "length" on the first two rounds and "stop" on the
third, the final content is the concatenation of the three rounds'
contents in order, exactly 3 API calls are made, the finish reason is
"stop", and the reported usage is the per-key sum of the three rounds'
usage — not the last round's alone. -/
theorem C4_continuation_accumulation (provider : Nat → ProviderResponse)
    (h0 : (provider 0).finish_reason = "length")
    (h1 : (provider 1).finish_reason = "length")
    (h2 : (provider 2).finish_reason = "stop") :
    (process_completion 2 provider).1.content
      = String.join [(provider 0).content, (provider 1).content,
          (provider 2).content]
    ∧ (process_completion 2 provider).2 = 3
    ∧ (process_completion 2 provider).1.finish_reason = "stop"
    ∧ (process_completion 2 provider).1.usage
      = (let u := mergeUsage (mergeUsage (mergeUsage []
            (provider 0).usage) (provider 1).usage) (provider 2).usage
         if u.isEmpty then none else some u) := by
  have k0 : handle_completion_result 2
      (roundStep provider initCompletionState)
      (provider initCompletionState.total_api_calls) 0 = none := by
    have hf : (provider initCompletionState.total_api_calls).finish_reason
        = "length" := h0
    simp only [handle_completion_result, hf]
    rw [if_neg (by decide), if_pos (by decide), if_neg (by decide)]
  have k1 : handle_completion_result 2
      (roundStep provider (roundStep provider initCompletionState))
      (provider (roundStep provider initCompletionState).total_api_calls)
      1 = none := by
    have hf : (provider (roundStep provider
        initCompletionState).total_api_calls).finish_reason = "length" := h1
    simp only [handle_completion_result, hf]
    rw [if_neg (by decide), if_pos (by decide), if_neg (by decide)]
  have k2 : handle_completion_result 2
      (roundStep provider (roundStep provider
        (roundStep provider initCompletionState)))
      (provider (roundStep provider (roundStep provider
        initCompletionState)).total_api_calls) 2
      = some (create_final_response
          (roundStep provider (roundStep provider
            (roundStep provider initCompletionState)))
          (provider (roundStep provider (roundStep provider
            initCompletionState)).total_api_calls).finish_reason) := by
    have hf : (provider (roundStep provider (roundStep provider
        initCompletionState)).total_api_calls).finish_reason = "stop" := h2
    simp only [handle_completion_result, hf]
    rw [if_pos (by decide)]
  have key : process_completion 2 provider
      = (create_final_response
          (roundStep provider (roundStep provider
            (roundStep provider initCompletionState)))
          (provider (roundStep provider (roundStep provider
            initCompletionState)).total_api_calls).finish_reason,
         (roundStep provider (roundStep provider
            (roundStep provider initCompletionState))).total_api_calls)
      := by
    unfold process_completion
    rw [completion_rounds_continue 2 provider 0 2 initCompletionState k0]
    rw [completion_rounds_continue 2 provider 1 1
      (roundStep provider initCompletionState) k1]
    rw [completion_rounds_finalize 2 provider 2 0
      (roundStep provider (roundStep provider initCompletionState)) _ k2]
  refine ⟨?_, ?_, ?_, ?_⟩
  · rw [key]; rfl
  · rw [key]; rfl
  · rw [key]
    exact h2
  · rw [key]; rfl

/-- Provider script used by witnesses: finish_reason "length" twice,
then "stop". -/
def scriptLLS : Nat → ProviderResponse := fun i =>
  if i == 0 then ⟨"A", "length", [("total_tokens", 1)]⟩
  else if i == 1 then ⟨"B", "length", [("total_tokens", 2)]⟩
  else ⟨"C", "stop", [("total_tokens", 3)]⟩

/-- C4 witness: the continuation-accumulation theorem at the concrete
length-length-stop script. -/
theorem C4_continuation_accumulation_witness :
    (process_completion 2 scriptLLS).1.content
      = String.join [(scriptLLS 0).content, (scriptLLS 1).content,
          (scriptLLS 2).content]
    ∧ (process_completion 2 scriptLLS).2 = 3
    ∧ (process_completion 2 scriptLLS).1.finish_reason = "stop"
    ∧ (process_completion 2 scriptLLS).1.usage
      = (let u := mergeUsage (mergeUsage (mergeUsage []
            (scriptLLS 0).usage) (scriptLLS 1).usage) (scriptLLS 2).usage
         if u.isEmpty then none else some u) :=
  C4_continuation_accumulation scriptLLS rfl rfl rfl

/-- Per-step usage entry stored in `UsageSummary.step_usage` (the
cost_usd field is omitted: floating point, no claim concerns it). -/
structure StepUsage where
  prompt_tokens : Int
  completion_tokens : Int
  total_tokens : Int
deriving DecidableEq

/-- UsageSummary counters (`bakufu/core/models/execution.py`). -/
structure UsageSummary where
  total_api_calls : Nat
  total_prompt_tokens : Int
  total_completion_tokens : Int
  total_tokens : Int
  step_usage : List (String × StepUsage)

/-- Fresh usage summary. -/
def initUsageSummary : UsageSummary := ⟨0, 0, 0, 0, []⟩

/-- UsageSummary.add_step_usage: always count exactly one API call;
with falsy usage (None or an empty dict) store a zero entry for the
step; otherwise add the token counts into the global totals and store
the step entry under the step id (assignment, i.e. an existing entry
for the same step id is overwritten). -/
def add_step_usage (s : UsageSummary) (step_id : String)
    (usage : Option (List (String × Int))) : UsageSummary :=
  let s1 := { s with total_api_calls := s.total_api_calls + 1 }
  match usage with
  | none =>
      { s1 with step_usage := setKey s1.step_usage step_id ⟨0, 0, 0⟩ }
  | some u =>
      if u.isEmpty then
        { s1 with step_usage := setKey s1.step_usage step_id ⟨0, 0, 0⟩ }
      else
        let prompt_tokens := lookupD u "prompt_tokens" 0
        let completion_tokens := lookupD u "completion_tokens" 0
        let total_tokens := lookupD u "total_tokens"
          (prompt_tokens + completion_tokens)
        { s1 with
          total_prompt_tokens := s1.total_prompt_tokens + prompt_tokens,
          total_completion_tokens :=
            s1.total_completion_tokens + completion_tokens,
          total_tokens := s1.total_tokens + total_tokens,
          step_usage := setKey s1.step_usage step_id
            ⟨prompt_tokens, completion_tokens, total_tokens⟩ }

/-- The usage-recording call of `_execute_ai_call_step` after a
completed model invocation:
`context.add_step_usage(step.id, response.usage, response.cost_usd)` —
one accumulator call per invocation, whatever number of continuation
rounds the invocation internally performed. -/
def record_ai_call_usage (s : UsageSummary) (step_id : String)
    (resp : AIResponseM) : UsageSummary :=
  add_step_usage s step_id resp.usage

/-- C5 counterexample: a model invocation whose continuation loop made
3 rounds (3 API calls) leads to exactly one accumulator call, which
increases UsageSummary.total_api_calls by 1, not by 3; and two
invocations recorded under the same step id leave step_usage holding
only the second invocation's numbers (overwrite), not their sum. -/
theorem C5_counterexample_usage_counters :
    (process_completion 2 scriptLLS).2 = 3
    ∧ (record_ai_call_usage initUsageSummary "s"
        (process_completion 2 scriptLLS).1).total_api_calls = 1
    ∧ (1 : Nat) ≠ 3
    ∧ lookupD (add_step_usage
        (add_step_usage initUsageSummary "s"
          (some [("prompt_tokens", 1), ("completion_tokens", 2),
            ("total_tokens", 3)]))
        "s"
        (some [("prompt_tokens", 10), ("completion_tokens", 20),
          ("total_tokens", 30)])).step_usage "s" ⟨0, 0, 0⟩
      = ⟨10, 20, 30⟩
    ∧ (⟨10, 20, 30⟩ : StepUsage) ≠ ⟨11, 22, 33⟩ :=
  ⟨rfl, rfl, by decide, rfl, by decide⟩

/-- C5 amended: the accumulator receives one call per completed model
invocation; each call increments total_api_calls by exactly 1
(continuation rounds inside the invocation are not separately
counted), the global token totals accumulate monotonically, and the
per-step entry is overwritten with the latest invocation's usage
rather than accumulated. -/
theorem C5_amended_usage_accounting (s : UsageSummary) (step_id : String)
    (u : List (String × Int)) (hu : u.isEmpty = false) :
    (∀ usage, (add_step_usage s step_id usage).total_api_calls
        = s.total_api_calls + 1)
    ∧ (add_step_usage s step_id (some u)).total_tokens
        = s.total_tokens + lookupD u "total_tokens"
            (lookupD u "prompt_tokens" 0 + lookupD u "completion_tokens" 0)
    ∧ (add_step_usage s step_id (some u)).step_usage
        = setKey s.step_usage step_id
            ⟨lookupD u "prompt_tokens" 0, lookupD u "completion_tokens" 0,
             lookupD u "total_tokens" (lookupD u "prompt_tokens" 0
               + lookupD u "completion_tokens" 0)⟩ := by
  refine ⟨?_, ?_, ?_⟩
  · intro usage
    cases usage with
    | none => rfl
    | some u2 =>
      by_cases h2 : u2.isEmpty <;> simp [add_step_usage, h2]
  · simp [add_step_usage, hu]
  · simp [add_step_usage, hu]

/-- C5 witness: the amended accounting at a concrete summary and usage
dict. -/
theorem C5_amended_usage_accounting_witness :
    (add_step_usage initUsageSummary "s"
        (some [("prompt_tokens", 1), ("total_tokens", 3)])).total_api_calls
      = initUsageSummary.total_api_calls + 1
    ∧ (add_step_usage initUsageSummary "s"
        (some [("prompt_tokens", 1), ("total_tokens", 3)])).total_tokens
      = initUsageSummary.total_tokens
        + lookupD [("prompt_tokens", 1), ("total_tokens", 3)]
            "total_tokens"
            (lookupD [("prompt_tokens", 1), ("total_tokens", 3)]
              "prompt_tokens" 0
             + lookupD [("prompt_tokens", 1), ("total_tokens", 3)]
                "completion_tokens" 0) := by
  have h := C5_amended_usage_accounting initUsageSummary "s"
    [("prompt_tokens", 1), ("total_tokens", 3)] rfl
  exact ⟨h.1 (some [("prompt_tokens", 1), ("total_tokens", 3)]), h.2.1⟩

/-- Load-time shape of a workflow step, keeping exactly the structure
the loading validators inspect: its id and its nested step lists.  A
conditional is either the basic form (if_true / if_false lists; a
missing if_false is the empty list) or the multi-branch form, whose
branches are (name, default flag, nested steps) triples.  Branch
condition strings and the other scalar fields are carried by no
validator relevant here and are omitted. -/
inductive WStep where
  | aiCall : String → WStep
  | textProcess : String → WStep
  | collectionOp : String → List WStep → WStep
  | conditionalBasic : String → List WStep → List WStep → WStep
  | conditionalMulti : String → List (String × Bool × List WStep) → WStep

/-- Step id of a load-time step. -/
def WStep.sid : WStep → String
  | .aiCall i => i
  | .textProcess i => i
  | .collectionOp i _ => i
  | .conditionalBasic i _ _ => i
  | .conditionalMulti i _ => i

/-- Python `len(ids) != len(set(ids))`. -/
def hasDuplicate : List String → Bool
  | [] => false
  | x :: rest => rest.contains x || hasDuplicate rest

mutual

/-- Construction-time validation run when `_transform_steps` and
pydantic materialize one step object: nested step lists are themselves
constructed (running their own validators), and a ConditionalStep
additionally checks, via `validate_conditions_structure`, that branch
names are unique and at most one branch is default.  No validator
checks id uniqueness inside any nested step list. -/
def validateStep : WStep → Except String Unit
  | .aiCall _ => .ok ()
  | .textProcess _ => .ok ()
  | .collectionOp _ nested => validateStepList nested
  | .conditionalBasic _ if_true if_false => do
      validateStepList if_true
      validateStepList if_false
  | .conditionalMulti _ branches => do
      validateBranches branches
      if hasDuplicate (branches.map (fun b => b.1)) then
        .error "Branch names must be unique"
      else if 1 < (branches.filter (fun b => b.2.1)).length then
        .error "Only one default branch is allowed"
      else .ok ()

/-- Validate each step of a list in order (the loop of
`_transform_steps`). -/
def validateStepList : List WStep → Except String Unit
  | [] => .ok ()
  | s :: rest => do
      validateStep s
      validateStepList rest

/-- Validate the nested step lists of each conditional branch. -/
def validateBranches :
    List (String × Bool × List WStep) → Except String Unit
  | [] => .ok ()
  | (_, _, steps) :: rest => do
      validateStepList steps
      validateBranches rest

end

/-- WorkflowLoader loading pipeline, restricted to the structural step
validation: `_transform_steps` constructs every step object (running
the validators above), then `Workflow(**data)` requires at least one
step and checks TOP-LEVEL id uniqueness
(`Workflow.validate_step_ids_unique`). -/
def load_workflow (steps : List WStep) : Except String Unit := do
  validateStepList steps
  if steps.isEmpty then
    .error "steps: list should have at least 1 item"
  else if hasDuplicate (steps.map WStep.sid) then
    .error "Step IDs must be unique"
  else .ok ()

/-- A step list containing a step that fails its construction-time
validation fails validation as a whole. -/
theorem validateStepList_error_of_mem {s : WStep} {steps : List WStep}
    (hmem : s ∈ steps) (hbad : (validateStep s).isOk = false) :
    (validateStepList steps).isOk = false := by
  induction steps with
  | nil => cases hmem
  | cons t rest ih =>
    rcases List.mem_cons.mp hmem with h | h
    · subst h
      cases hv : validateStep s with
      | ok u =>
        rw [hv] at hbad
        exact absurd hbad (by simp [Except.isOk, Except.toBool])
      | error e =>
        simp only [validateStepList, hv]
        rfl
    · cases hv : validateStep t with
      | ok u =>
        simp only [validateStepList, hv]
        exact ih h
      | error e =>
        simp only [validateStepList, hv]
        rfl

/-- A multi-branch conditional with duplicate branch names or more
than one default branch fails its construction-time validation. -/
theorem validateStep_conditionalMulti_invalid (sid2 : String)
    (branches : List (String × Bool × List WStep))
    (h : hasDuplicate (branches.map (fun b => b.1)) = true
      ∨ 1 < (branches.filter (fun b => b.2.1)).length) :
    (validateStep (WStep.conditionalMulti sid2 branches)).isOk = false := by
  cases hv : validateBranches branches with
  | error e =>
    simp only [validateStep, hv]
    rfl
  | ok u =>
    simp only [validateStep, hv]
    by_cases hd : hasDuplicate (branches.map (fun b => b.1)) = true
    · simp only [hd]
      rfl
    · have hd2 : hasDuplicate (branches.map (fun b => b.1)) = false :=
        Bool.eq_false_iff.mpr hd
      rcases h with h | h
      · exact absurd h hd
      · simp only [hd2, if_pos h]
        rfl

/-- C8 counterexample: a workflow whose only step is a conditional with
two nested steps sharing an id loads successfully, as do a collection
step with duplicate nested ids and a multi-branch conditional with
duplicate ids inside one branch — nested step lists are not subject to
any id-uniqueness check, so loading does not fail as the claim
states. -/
theorem C8_counterexample_nested_duplicate_ids_load :
    load_workflow [WStep.conditionalBasic "c"
        [WStep.aiCall "x", WStep.aiCall "x"] []] = .ok ()
    ∧ load_workflow [WStep.collectionOp "m"
        [WStep.aiCall "y", WStep.aiCall "y"]] = .ok ()
    ∧ load_workflow [WStep.conditionalMulti "c2"
        [("b1", false, [WStep.aiCall "z", WStep.aiCall "z"])]] = .ok () :=
  ⟨rfl, rfl, rfl⟩

/-- C8 amended: loading fails when two TOP-LEVEL steps share an id,
and constructing a conditional with duplicate branch names or more
than one default branch fails; duplicate step ids inside a nested step
list (conditional branches, if_true/if_false, or a collection
operation's nested steps) are NOT rejected (see the counterexample). -/
theorem C8_amended_uniqueness_checks :
    (∀ steps : List WStep, hasDuplicate (steps.map WStep.sid) = true →
      (load_workflow steps).isOk = false)
    ∧ (∀ (sid2 : String) (branches : List (String × Bool × List WStep))
        (steps : List WStep),
        WStep.conditionalMulti sid2 branches ∈ steps →
        (hasDuplicate (branches.map (fun b => b.1)) = true
          ∨ 1 < (branches.filter (fun b => b.2.1)).length) →
        (load_workflow steps).isOk = false) := by
  constructor
  · intro steps hdup
    unfold load_workflow
    cases hv : validateStepList steps with
    | error e => rfl
    | ok u =>
      have hne : steps.isEmpty = false := by
        cases steps with
        | nil => exact absurd hdup (by decide)
        | cons a b => rfl
      simp only [hne, hdup]
      rfl
  · intro sid2 branches steps hmem hbad
    have h1 := validateStep_conditionalMulti_invalid sid2 branches hbad
    have h2 := validateStepList_error_of_mem hmem h1
    unfold load_workflow
    cases hv : validateStepList steps with
    | error e => rfl
    | ok u =>
      rw [hv] at h2
      exact absurd h2 (by simp [Except.isOk, Except.toBool])

/-- C8 witness: a top-level duplicate id makes loading fail, and a
two-default conditional makes loading fail. -/
theorem C8_amended_uniqueness_checks_witness :
    (load_workflow [WStep.aiCall "a", WStep.aiCall "a"]).isOk = false
    ∧ (load_workflow [WStep.conditionalMulti "c"
        [("b1", true, []), ("b2", true, [])]]).isOk = false :=
  ⟨C8_amended_uniqueness_checks.1 [WStep.aiCall "a", WStep.aiCall "a"] rfl,
   C8_amended_uniqueness_checks.2 "c"
     [("b1", true, []), ("b2", true, [])] _ (List.mem_singleton.mpr rfl)
     (Or.inr (by decide))⟩
